import Mathlib

/-!
Verification development for the PhET-iO instrumentation core:
the IOType/StateSchema validation system, the NumberIO leaf type,
the Tandem naming/registration tree, the dynamic element containers
(PhetioGroup / PhetioCapsule / PhetioDynamicElementContainer) and the
PhET-iO API validator.  Each definition is a shallow embedding of the
corresponding JavaScript source; assertions of the development build
(`assert` enabled) are modelled as the `.error` branch of `Except Unit`.
-/

namespace Spec2Proof

/-! ## JavaScript value model

JS numbers are modelled as rationals plus the three non-finite values;
JS values as numbers, strings, booleans, `null`, `undefined` and plain
objects (ordered key/value lists with unique keys, as produced by
object literals). -/

/-- JS number: a finite value, one of the two infinities, or NaN. -/
inductive JSNum where
  | finite (q : ℚ)
  | posInf
  | negInf
  | nan
deriving DecidableEq, Repr

/-- JS value tree (the wire format: JSON values plus `undefined`). -/
inductive JSVal where
  | num (n : JSNum)
  | str (s : String)
  | bool (b : Bool)
  | null
  | jsUndefined
  | obj (fields : List (String × JSVal))

/-- `isNaN(value)` for a JS number. -/
def JSNum.isNaNNum : JSNum → Bool
  | .nan => true
  | _ => false

/-- `typeof value === 'number'`. -/
def JSVal.isNumber : JSVal → Bool
  | .num _ => true
  | _ => false

/-- `typeof value === 'string'`. -/
def JSVal.isString : JSVal → Bool
  | .str _ => true
  | _ => false

/-- JS truthiness. -/
def JSVal.truthy : JSVal → Bool
  | .num (.finite q) => decide (q ≠ 0)
  | .num .nan => false
  | .num _ => true
  | .str s => decide (s ≠ "")
  | .bool b => b
  | .null => false
  | .jsUndefined => false
  | .obj _ => true

/-- `objectLevel.hasOwnProperty(key)`: a TypeError (modelled as `.error`)
on `null`/`undefined`, key lookup on objects, `false` on other primitives. -/
def JSVal.hasOwnProperty : JSVal → String → Except Unit Bool
  | .null, _ => .error ()
  | .jsUndefined, _ => .error ()
  | .obj fs, k => .ok (fs.lookup k).isSome
  | _, _ => .ok false

/-- `objectLevel[key]`: `undefined` when the key is absent or the value is
not an object.  (Callers in the embedded code reach this only after a
successful `hasOwnProperty`, so the `null`/`undefined` cases are unreachable.) -/
def JSVal.getField : JSVal → String → JSVal
  | .obj fs, k => (fs.lookup k).getD .jsUndefined
  | _, _ => .jsUndefined

/-- `Object.keys(stateObject)` (empty for non-objects, as for autoboxed
primitives with no enumerable own keys relevant here). -/
def JSVal.keys : JSVal → List String
  | .obj fs => fs.map Prod.fst
  | _ => []

/-! ## IOType / StateSchema validation (src/unnamed/part_004, StateSchema.js)

An `IOTy` keeps exactly the data `IOType.isStateObjectValid` consults:
the supertype reference and the (optional) `StateSchema`, which is either
a "value" schema (a validator predicate) or a "composite" schema (an
ordered map from field name to component IOType, with an optional
`_private` bucket).  Functions take a recursion-depth `fuel` argument;
all embedded type hierarchies are finite, so a large enough fuel makes
the embedding agree with the JS recursion. -/

/-- StateSchema shape, parametric in the component-type representation. -/
inductive SchemaF (α : Type) : Type where
  | value (validator : JSVal → Bool)
  | composite (pub : List (String × α)) (priv : Option (List (String × α)))

/-- An IOType as seen by state-object validation: supertype chain plus
its own StateSchema (`none` = `stateSchema: null`). -/
inductive IOTy : Type where
  | mk (supertype : Option IOTy) (stateSchema : Option (SchemaF IOTy))

/-- Supertype accessor. -/
def IOTy.supertype : IOTy → Option IOTy
  | .mk st _ => st

/-- StateSchema accessor. -/
def IOTy.stateSchema : IOTy → Option (SchemaF IOTy)
  | .mk _ sch => sch

/-- `StateSchema.isComposite()` of the type's own schema (false when the
schema is null). -/
def IOTy.hasCompositeSchema : IOTy → Bool
  | .mk _ (some (.composite _ _)) => true
  | _ => false

mutual

/-- `IOType.isStateObjectValid( stateObject, toAssert, publicSchemaKeys,
privateSchemaKeys )` with development-build assertions modelled as
`.error`.  The two key lists are threaded explicitly (the JS mutates the
arrays in place down the supertype recursion). -/
def isStateObjectValid : Nat → IOTy → JSVal → Bool → List String → List String →
    Except Unit Bool
  | 0, _, _, _, _, _ => .error ()
  | fuel + 1, t, stateObject, toAssert, publicSchemaKeys, privateSchemaKeys => do
    -- make sure the stateObject has everything the schema requires and nothing more
    let (validSoFar, publicSchemaKeys, privateSchemaKeys) ←
      match t.stateSchema with
      | some schema => do
        let r ← checkStateObjectValid fuel schema stateObject toAssert
          publicSchemaKeys privateSchemaKeys
        pure r
      | none => pure ((none : Option Bool), publicSchemaKeys, privateSchemaKeys)
    match validSoFar with
    | some b => pure b  -- non-null: the stateSchema was a value, not a composite
    | none =>
      match t.supertype with
      | some st =>
        if !t.hasCompositeSchema then
          -- `return valid && this.supertype.isStateObjectValid( ... )` with valid = true
          isStateObjectValid fuel st stateObject toAssert publicSchemaKeys privateSchemaKeys
        else
          pure true
      | none =>
        -- when we reach the root, make sure there is nothing in the stateObject
        -- that is not described by a schema
        if stateObject.truthy && !stateObject.isString then do
          let pubOk ← rootKeysCheck toAssert publicSchemaKeys
            ((stateObject.keys).filter (fun k => k ≠ "_private"))
          let privOk ←
            if (stateObject.getField "_private").truthy then
              rootKeysCheck toAssert privateSchemaKeys (stateObject.getField "_private").keys
            else
              pure true
          pure (pubOk && privOk)
        else
          pure true

/-- `StateSchema.checkStateObjectValid( stateObject, toAssert,
publicSchemaKeys, privateSchemaKeys )`: returns the JS `boolean|null`
result (as `Option Bool`) together with the updated key lists. -/
def checkStateObjectValid : Nat → SchemaF IOTy → JSVal → Bool → List String → List String →
    Except Unit (Option Bool × List String × List String)
  | 0, _, _, _, _, _ => .error ()
  | fuel + 1, .composite pub priv, stateObject, toAssert, publicSchemaKeys, privateSchemaKeys => do
    let (missingPub, publicSchemaKeys) ← checkLevel fuel pub stateObject toAssert publicSchemaKeys
    match priv with
    | some privSchema => do
      let (missingPriv, privateSchemaKeys) ← checkLevel fuel privSchema
        (stateObject.getField "_private") toAssert privateSchemaKeys
      pure (if missingPub || missingPriv then some false else none,
        publicSchemaKeys, privateSchemaKeys)
    | none =>
      pure (if missingPub then some false else none, publicSchemaKeys, privateSchemaKeys)
  | _ + 1, .value validator, stateObject, toAssert, publicSchemaKeys, privateSchemaKeys =>
    -- `if ( toAssert ) { validate( stateObject, this.validator ); }` (throws in dev build)
    if toAssert && !validator stateObject then .error ()
    else .ok (some (validator stateObject), publicSchemaKeys, privateSchemaKeys)

/-- The `checkLevel` closure of `checkStateObjectValid`: walks one level of
a composite schema, recording whether any schema key was missing from the
state object and appending the visited keys to the key list.  Each value is
checked with `validateStateObject` (i.e. `isStateObjectValid` with
`toAssert = true`), whose boolean result is discarded but whose assertion
failures propagate. -/
def checkLevel : Nat → List (String × IOTy) → JSVal → Bool → List String →
    Except Unit (Bool × List String)
  | 0, _, _, _, _ => .error ()
  | _ + 1, [], _, _, keyList => .ok (false, keyList)
  | fuel + 1, (key, ty) :: rest, objectLevel, toAssert, keyList => do
    let validKey ← objectLevel.hasOwnProperty key
    if toAssert && !validKey then .error ()
    else do
      let _ ← isStateObjectValid fuel ty (objectLevel.getField key) true [] []
      let (missingRest, keyList) ← checkLevel fuel rest objectLevel toAssert (keyList ++ [key])
      pure (!validKey || missingRest, keyList)

/-- The root-level closed-world `check` closure: every key of the state
object must be in the accumulated schema-key list; a missing key makes the
result false (and throws when `toAssert`). -/
def rootKeysCheck : Bool → List String → List String → Except Unit Bool
  | _, _, [] => .ok true
  | toAssert, declaredKeys, key :: rest =>
    let keyValid := declaredKeys.contains key
    if toAssert && !keyValid then .error ()
    else do
      let restOk ← rootKeysCheck toAssert declaredKeys rest
      pure (keyValid && restOk)

end

/-- `IOType.validateStateObject( stateObject )` = `isStateObjectValid`
with `toAssert = true` (fresh key lists, as the JS default parameters). -/
def validateStateObject (fuel : Nat) (t : IOTy) (stateObject : JSVal) : Except Unit Bool :=
  isStateObjectValid fuel t stateObject true [] []

/-! ## Concrete IOTypes (NumberIO.js, StringIO.js, ValueIO.js, ObjectIO) -/

/-- The `isValidValue` validator of NumberIO's value StateSchema:
`value === 'POSITIVE_INFINITY' || value === 'NEGATIVE_INFINITY' ||
( typeof value === 'number' && !isNaN( value ) )`. -/
def numberIOIsValidValue : JSVal → Bool
  | .str s => s == "POSITIVE_INFINITY" || s == "NEGATIVE_INFINITY"
  | .num n => !n.isNaNNum
  | _ => false

/-- ObjectIO: `supertype: null`, `stateSchema: null` (the root of the
IO Type hierarchy). -/
def objectIOTy : IOTy := .mk none none

/-- NumberIO: default supertype ObjectIO, value StateSchema with
`numberIOIsValidValue`. -/
def numberIOTy : IOTy := .mk (some objectIOTy) (some (.value numberIOIsValidValue))

/-- ValueIO: supertype ObjectIO, value StateSchema accepting anything
(`isValidValue: _.stubTrue`). -/
def valueIOTy : IOTy := .mk (some objectIOTy) (some (.value (fun _ => true)))

/-- StringIO: supertype ValueIO, value StateSchema `{ valueType: 'string' }`. -/
def stringIOTy : IOTy := .mk (some valueIOTy) (some (.value JSVal.isString))

/-- An IOType with default supertype (ObjectIO) and the root-level composite
StateSchema `{ a: NumberIO, b: StringIO }` of the spec's closed-world
scenario. -/
def abCompositeIOTy : IOTy :=
  .mk (some objectIOTy) (some (.composite [("a", numberIOTy), ("b", stringIOTy)] none))

/-- NumberIO's `toStateObject` config function: maps the two infinities to
their sentinel strings and returns every other number unchanged. -/
def numberIOToStateObjectBody : JSVal → JSVal
  | .num .posInf => .str "POSITIVE_INFINITY"
  | .num .negInf => .str "NEGATIVE_INFINITY"
  | v => v

/-- NumberIO's `fromStateObject`: maps the sentinel strings back to the
infinities and returns every other state object unchanged. -/
def numberIOFromStateObject : JSVal → JSVal
  | .str "POSITIVE_INFINITY" => .num .posInf
  | .str "NEGATIVE_INFINITY" => .num .negInf
  | v => v

/-- The full `NumberIO.toStateObject` as built by the IOType constructor:
validates the core value against the type's validator (`valueType:
'number'`), applies the supplied config function, then (dev build)
`validateStateObject` on the result. -/
def numberIOToStateObject (v : JSVal) : Except Unit JSVal := do
  if !v.isNumber then .error ()
  else do
    let stateObject := numberIOToStateObjectBody v
    let _ ← validateStateObject 100 numberIOTy stateObject
    pure stateObject

/-! ## Theorems about state-object validation and NumberIO -/

/-- C1: the spec requires that, for a root-level composite schema
`{a: NumberIO, b: StringIO}`, a state object with an undeclared extra key
(`{a: 1, b: "hi", c: true}`) fails validation.  Evaluating the embedded
`isStateObjectValid` shows the code accepts it (`.ok true`, in both assert
modes): because the supertype walk is skipped when the type's own schema is
composite, the root closed-world key check is never reached, so the
accumulated schema-key lists are never consulted.  The object without the
extra key also passes, and a missing schema key does fail (dev-build
assertion). -/
theorem c1_compositeExtraKeyAccepted :
    isStateObjectValid 100 abCompositeIOTy
      (.obj [("a", .num (.finite 1)), ("b", .str "hi"), ("c", .bool true)]) true [] [] = .ok true
  ∧ isStateObjectValid 100 abCompositeIOTy
      (.obj [("a", .num (.finite 1)), ("b", .str "hi"), ("c", .bool true)]) false [] [] = .ok true
  ∧ isStateObjectValid 100 abCompositeIOTy
      (.obj [("a", .num (.finite 1)), ("b", .str "hi")]) true [] [] = .ok true
  ∧ validateStateObject 100 abCompositeIOTy (.obj [("a", .num (.finite 1))]) = .error () :=
  ⟨rfl, rfl, rfl, rfl⟩

/-- C7: NumberIO maps `Number.POSITIVE_INFINITY` to the sentinel string
`"POSITIVE_INFINITY"`, `Number.NEGATIVE_INFINITY` to `"NEGATIVE_INFINITY"`,
and every finite number to itself; `fromStateObject` inverts this exactly
(sentinels back to the infinities, finite numbers unchanged). -/
theorem c7_numberIORoundTrip :
    numberIOToStateObject (.num .posInf) = .ok (.str "POSITIVE_INFINITY")
  ∧ numberIOToStateObject (.num .negInf) = .ok (.str "NEGATIVE_INFINITY")
  ∧ numberIOFromStateObject (.str "POSITIVE_INFINITY") = .num .posInf
  ∧ numberIOFromStateObject (.str "NEGATIVE_INFINITY") = .num .negInf
  ∧ numberIOToStateObject (.num (.finite 5)) = .ok (.num (.finite 5))
  ∧ ∀ q : ℚ, numberIOToStateObject (.num (.finite q)) = .ok (.num (.finite q))
      ∧ numberIOFromStateObject (.num (.finite q)) = .num (.finite q) :=
  ⟨rfl, rfl, rfl, rfl, rfl, fun _ => ⟨rfl, rfl⟩⟩

/-- C10: NumberIO's declared state-schema validator holds exactly on the
two infinity sentinel strings and non-NaN numbers; the raw `toStateObject`
passes NaN through unchanged, yet NaN fails the type's own schema
validation, so the full (dev-build) `toStateObject` errors on NaN. -/
theorem c10_numberIOSchemaRejectsNaN :
    (∀ v : JSVal, numberIOIsValidValue v = true ↔
        (v = .str "POSITIVE_INFINITY" ∨ v = .str "NEGATIVE_INFINITY" ∨
          ∃ n : JSNum, v = .num n ∧ n ≠ .nan))
  ∧ numberIOToStateObjectBody (.num .nan) = .num .nan
  ∧ numberIOIsValidValue (.num .nan) = false
  ∧ numberIOToStateObject (.num .nan) = .error () := by
  refine ⟨fun v => ?_, rfl, rfl, rfl⟩
  cases v with
  | str s =>
    simp only [numberIOIsValidValue, Bool.or_eq_true, beq_iff_eq]
    constructor
    · rintro (h | h) <;> simp [h]
    · rintro (h | h | ⟨n, h, _⟩) <;> simp_all
  | num n =>
    cases n <;> simp [numberIOIsValidValue, JSNum.isNaNNum]
  | bool b => simp [numberIOIsValidValue]
  | null => simp [numberIOIsValidValue]
  | jsUndefined => simp [numberIOIsValidValue]
  | obj fs => simp [numberIOIsValidValue]

/-! ## PhetioGroup / PhetioDynamicElementContainer
(src/tandem/js/PhetioGroup.js, PhetioDynamicElementContainer.js)

Elements are identified with their group index (a natural number).  The
state keeps the live `_array`, the `groupElementIndex` counter, the
`countProperty` value, the deferral flag with its two pending queues, the
set of disposed elements, and the ordered list of notifications emitted to
listeners.  Each emitted notification also records the `countProperty`
value and `_array` length observable at emission time. -/

/-- Kind of a dynamic-element container notification. -/
inductive NotifKind where
  | created
  | disposed
deriving DecidableEq, Repr

/-- One notification delivered to listeners, with the `countProperty` value
and live-array length an observer would read at emission time. -/
structure GNotif where
  kind : NotifKind
  elem : ℕ
  countAtEmit : ℕ
  arrayLenAtEmit : ℕ
deriving DecidableEq, Repr

/-- State of a PhetioGroup (including the deferral machinery it inherits
from PhetioDynamicElementContainer). -/
structure GroupState where
  array : List ℕ
  groupElementIndex : ℕ
  count : ℕ
  notificationsDeferred : Bool
  deferredCreations : List ℕ
  deferredDisposals : List ℕ
  disposedElems : List ℕ
  log : List GNotif
deriving DecidableEq, Repr

/-- A freshly constructed group: empty array, counter 0, count 0,
notifications not deferred. -/
def initGroup : GroupState :=
  { array := [], groupElementIndex := 0, count := 0, notificationsDeferred := false,
    deferredCreations := [], deferredDisposals := [], disposedElems := [], log := [] }

/-- `elementCreatedEmitter.emit( element )`. -/
def emitCreated (s : GroupState) (e : ℕ) : GroupState :=
  { s with log := s.log ++ [⟨.created, e, s.count, s.array.length⟩] }

/-- `elementDisposedEmitter.emit( element )`. -/
def emitDisposed (s : GroupState) (e : ℕ) : GroupState :=
  { s with log := s.log ++ [⟨.disposed, e, s.count, s.array.length⟩] }

/-- `PhetioDynamicElementContainer.notifyElementCreated( createdElement )`:
queue while deferred, otherwise emit immediately. -/
def notifyElementCreated (s : GroupState) (e : ℕ) : GroupState :=
  if s.notificationsDeferred then
    { s with deferredCreations := s.deferredCreations ++ [e] }
  else
    emitCreated s e

/-- phet-core `arrayRemove`: asserts the element is present, then removes
its first occurrence. -/
def arrayRemove (xs : List ℕ) (e : ℕ) : Except Unit (List ℕ) :=
  if e ∈ xs then .ok (xs.erase e) else .error ()

/-- `PhetioGroup.createIndexedElement( index, ... )` (creation-order part):
instantiate the element, push it on `_array`, set `countProperty` to the
array length, then `notifyElementCreated`. -/
def createIndexedElement (s : GroupState) (index : ℕ) : GroupState :=
  let s₁ := { s with array := s.array ++ [index] }
  let s₂ := { s₁ with count := s₁.array.length }
  notifyElementCreated s₂ index

/-- `PhetioGroup.createNextElement( ... )` =
`createIndexedElement( this.groupElementIndex++, ... )`. -/
def createNextElement (s : GroupState) : GroupState :=
  createIndexedElement { s with groupElementIndex := s.groupElementIndex + 1 }
    s.groupElementIndex

/-- `PhetioGroup.disposeElement( element )` followed by the superclass
`PhetioDynamicElementContainer.disposeElement`: assert not already
disposed, remove from `_array`, update `countProperty`, dispose the
element, then queue or emit the disposal notification. -/
def disposeElement (s : GroupState) (e : ℕ) : Except Unit GroupState :=
  if e ∈ s.disposedElems then .error ()
  else do
    let arr ← arrayRemove s.array e
    let s₁ := { s with array := arr, count := arr.length }
    let s₂ := { s₁ with disposedElems := s₁.disposedElems ++ [e] }
    if s₂.notificationsDeferred then
      pure { s₂ with deferredDisposals := s₂.deferredDisposals ++ [e] }
    else
      pure (emitDisposed s₂ e)

/-- The `while ( this.deferredCreations.length > 0 )
notifyElementCreatedWhileDeferred( this.deferredCreations[ 0 ] )` loop:
emit the head creation and `arrayRemove` it from the queue, repeatedly. -/
def flushCreations (s : GroupState) : GroupState :=
  match h : s.deferredCreations with
  | [] => s
  | e :: rest =>
    flushCreations { s with
      log := s.log ++ [⟨.created, e, s.count, s.array.length⟩],
      deferredCreations := (e :: rest).erase e }
termination_by s.deferredCreations.length
decreasing_by simp [h, List.erase_cons_head]

/-- The corresponding loop over `deferredDisposals`. -/
def flushDisposals (s : GroupState) : GroupState :=
  match h : s.deferredDisposals with
  | [] => s
  | e :: rest =>
    flushDisposals { s with
      log := s.log ++ [⟨.disposed, e, s.count, s.array.length⟩],
      deferredDisposals := (e :: rest).erase e }
termination_by s.deferredDisposals.length
decreasing_by simp [h, List.erase_cons_head]

/-- `PhetioDynamicElementContainer.setNotificationsDeferred(
notificationsDeferred )`: asserts the value changes; when turning deferral
off, flushes all queued creations and then all queued disposals; asserts
both queues are empty; records the new flag. -/
def setNotificationsDeferred (s : GroupState) (b : Bool) : Except Unit GroupState :=
  if b = s.notificationsDeferred then .error ()
  else
    let s' := if !b then flushDisposals (flushCreations s) else s
    if s'.deferredCreations = [] ∧ s'.deferredDisposals = [] then
      .ok { s' with notificationsDeferred := b }
    else .error ()

/-- Closed form of the creation-flush loop: it emits one creation
notification per queued element, in queue order, and empties the queue;
the array, counter, count and disposal data are untouched. -/
theorem flushCreations_go (l : List ℕ) : ∀ (arr : List ℕ) (gei cnt : ℕ) (nd : Bool)
    (dd disp : List ℕ) (lg : List GNotif),
    flushCreations ⟨arr, gei, cnt, nd, l, dd, disp, lg⟩ =
      ⟨arr, gei, cnt, nd, [], dd, disp,
        lg ++ l.map (fun e => ⟨.created, e, cnt, arr.length⟩)⟩ := by
  induction l with
  | nil => intros; unfold flushCreations; simp
  | cons e rest ih =>
    intros arr gei cnt nd dd disp lg
    unfold flushCreations
    simp only [List.erase_cons_head, ih, List.map_cons, List.append_assoc,
      List.singleton_append]

/-- Closed form of the disposal-flush loop. -/
theorem flushDisposals_go (l : List ℕ) : ∀ (arr : List ℕ) (gei cnt : ℕ) (nd : Bool)
    (dc disp : List ℕ) (lg : List GNotif),
    flushDisposals ⟨arr, gei, cnt, nd, dc, l, disp, lg⟩ =
      ⟨arr, gei, cnt, nd, dc, [], disp,
        lg ++ l.map (fun e => ⟨.disposed, e, cnt, arr.length⟩)⟩ := by
  induction l with
  | nil => intros; unfold flushDisposals; simp
  | cons e rest ih =>
    intros arr gei cnt nd dc disp lg
    unfold flushDisposals
    simp only [List.erase_cons_head, ih, List.map_cons, List.append_assoc,
      List.singleton_append]

/-- C2: with notifications deferred, created elements are queued on the
creations list and disposed elements on the disposals list (no immediate
notification); `setNotificationsDeferred(false)` then delivers every queued
creation first, in original order, then every queued disposal, in original
order, one notification per queue entry, and leaves both queues empty. -/
theorem c2_deferredNotificationFlush (s : GroupState) (e : ℕ)
    (h : s.notificationsDeferred = true) :
    ((createIndexedElement s e).log = s.log
      ∧ (createIndexedElement s e).deferredCreations = s.deferredCreations ++ [e])
  ∧ (∀ s', disposeElement s e = .ok s' →
      s'.log = s.log ∧ s'.deferredDisposals = s.deferredDisposals ++ [e])
  ∧ setNotificationsDeferred s false = .ok
      { s with
        notificationsDeferred := false,
        deferredCreations := [],
        deferredDisposals := [],
        log := s.log
          ++ s.deferredCreations.map (fun c => ⟨.created, c, s.count, s.array.length⟩)
          ++ s.deferredDisposals.map (fun d => ⟨.disposed, d, s.count, s.array.length⟩) } := by
  obtain ⟨arr, gei, cnt, nd, dc, dd, disp, lg⟩ := s
  simp only at h
  subst h
  refine ⟨?_, ?_, ?_⟩
  · simp [createIndexedElement, notifyElementCreated]
  · intro s' hs'
    simp only [disposeElement, arrayRemove] at hs'
    split at hs' <;> simp_all
    split at hs' <;> simp_all
    cases hs'
    simp
  · simp only [setNotificationsDeferred, Bool.false_eq_true, if_false,
      Bool.not_false, if_pos, flushCreations_go, flushDisposals_go]
    simp

/-- Iterated `createNextElement` (N successive creations, no disposals). -/
def createN : ℕ → GroupState → GroupState
  | 0, s => s
  | n + 1, s => createNextElement (createN n s)

/-- Closed form of a fresh group after N `createNextElement` calls. -/
def groupAfterCreates (N : ℕ) : GroupState :=
  { array := List.range N, groupElementIndex := N, count := N, notificationsDeferred := false,
    deferredCreations := [], deferredDisposals := [], disposedElems := [],
    log := (List.range N).map (fun i => ⟨.created, i, i + 1, i + 1⟩) }

/-- One more creation advances the closed form. -/
theorem createNextElement_groupAfterCreates (N : ℕ) :
    createNextElement (groupAfterCreates N) = groupAfterCreates (N + 1) := by
  simp [createNextElement, createIndexedElement, notifyElementCreated, emitCreated,
    groupAfterCreates, List.range_succ]

/-- N creations from a fresh group give the closed form. -/
theorem createN_initGroup (N : ℕ) : createN N initGroup = groupAfterCreates N := by
  induction N with
  | zero => rfl
  | succ n ih => simp [createN, ih, createNextElement_groupAfterCreates]

/-- Closed form after additionally disposing the element with index k. -/
def groupAfterDispose (N k : ℕ) : GroupState :=
  { array := (List.range N).erase k, groupElementIndex := N, count := N - 1,
    notificationsDeferred := false, deferredCreations := [], deferredDisposals := [],
    disposedElems := [k],
    log := (groupAfterCreates N).log ++ [⟨.disposed, k, N - 1, N - 1⟩] }

/-- C5: after N `createNextElement` calls on a fresh group the live array
is exactly `[0, 1, …, N-1]` (strictly increasing, gap-free, length N) and
the counter is N; disposing the element with index k and creating one more
element appends a new element with index N — the counter value — never
reusing k. -/
theorem c5_indexCounterNeverReused (N k : ℕ) (h : k < N) :
    createN N initGroup = groupAfterCreates N
  ∧ (groupAfterCreates N).array = List.range N
  ∧ (groupAfterCreates N).array.length = N
  ∧ (groupAfterCreates N).groupElementIndex = N
  ∧ List.Pairwise (· < ·) (groupAfterCreates N).array
  ∧ (∀ i, i ∈ (groupAfterCreates N).array ↔ i < N)
  ∧ disposeElement (groupAfterCreates N) k = .ok (groupAfterDispose N k)
  ∧ (createNextElement (groupAfterDispose N k)).array = ((List.range N).erase k) ++ [N]
  ∧ N ≠ k := by
  refine ⟨createN_initGroup N, rfl, by simp [groupAfterCreates], rfl,
    List.pairwise_lt_range N, fun i => by simp [groupAfterCreates], ?_, ?_, by omega⟩
  · have hk : k ∈ List.range N := List.mem_range.mpr h
    simp [disposeElement, arrayRemove, emitDisposed, groupAfterCreates, groupAfterDispose, hk,
      List.length_erase_of_mem hk]
  · simp [createNextElement, createIndexedElement, notifyElementCreated, emitCreated,
      groupAfterDispose]

/-- Operations a client can perform on a PhetioGroup. -/
inductive GroupOp where
  | createNext : GroupOp
  | createIndexed (index : ℕ) : GroupOp
  | dispose (e : ℕ) : GroupOp
  | setDeferred (b : Bool) : GroupOp
deriving DecidableEq, Repr

/-- Apply one group operation. -/
def applyGroupOp (s : GroupState) : GroupOp → Except Unit GroupState
  | .createNext => .ok (createNextElement s)
  | .createIndexed index => .ok (createIndexedElement s index)
  | .dispose e => disposeElement s e
  | .setDeferred b => setNotificationsDeferred s b

/-- Run a sequence of group operations. -/
def runGroupOps (s : GroupState) : List GroupOp → Except Unit GroupState
  | [] => .ok s
  | op :: rest => do
    let s' ← applyGroupOp s op
    runGroupOps s' rest

/-- The C9 invariant: `countProperty` equals the live-array length, and
every notification ever delivered was emitted at a moment when they
agreed. -/
def groupCountConsistent (s : GroupState) : Prop :=
  s.count = s.array.length ∧ ∀ n ∈ s.log, n.countAtEmit = n.arrayLenAtEmit

instance (s : GroupState) : Decidable (groupCountConsistent s) := by
  unfold groupCountConsistent; infer_instance

/-- Each single group operation preserves the count/array consistency. -/
theorem applyGroupOp_countConsistent (s : GroupState) (op : GroupOp) (s' : GroupState)
    (hop : applyGroupOp s op = .ok s') (hinv : groupCountConsistent s) :
    groupCountConsistent s' := by
  obtain ⟨hcnt, hlog⟩ := hinv
  cases op with
  | createNext =>
    cases hop
    obtain ⟨arr, gei, cnt, nd, dc, dd, disp, lg⟩ := s
    simp only [createNextElement, createIndexedElement, notifyElementCreated, emitCreated,
      groupCountConsistent] at *
    split <;> simp_all <;> rintro n (hn | rfl) <;> simp_all
  | createIndexed index =>
    cases hop
    obtain ⟨arr, gei, cnt, nd, dc, dd, disp, lg⟩ := s
    simp only [createIndexedElement, notifyElementCreated, emitCreated,
      groupCountConsistent] at *
    split <;> simp_all <;> rintro n (hn | rfl) <;> simp_all
  | dispose e =>
    obtain ⟨arr, gei, cnt, nd, dc, dd, disp, lg⟩ := s
    simp only [applyGroupOp, disposeElement, arrayRemove] at hop
    split at hop
    · cases hop
    · split at hop
      · simp only [bind, Except.bind, pure, Except.pure] at hop
        split at hop <;> cases hop
        · exact ⟨rfl, hlog⟩
        · refine ⟨rfl, ?_⟩
          intro n hn
          simp only [emitDisposed, List.mem_append, List.mem_singleton] at hn
          rcases hn with hn | rfl
          · exact hlog n hn
          · rfl
      · simp only [bind, Except.bind] at hop
        cases hop
  | setDeferred b =>
    obtain ⟨arr, gei, cnt, nd, dc, dd, disp, lg⟩ := s
    simp only [applyGroupOp, setNotificationsDeferred, flushCreations_go,
      flushDisposals_go] at hop
    split at hop
    · cases hop
    · split at hop
      · -- turning deferral off: both queues flushed
        split at hop <;> cases hop
        refine ⟨hcnt, ?_⟩
        intro n hn
        simp only [List.mem_append, List.mem_map] at hn
        rcases hn with (hn | ⟨c, _, rfl⟩) | ⟨d, _, rfl⟩
        · exact hlog n hn
        · exact hcnt
        · exact hcnt
      · -- turning deferral on: nothing flushed
        split at hop <;> cases hop
        exact ⟨hcnt, hlog⟩

/-- C9: over any successful sequence of group operations, the public
`countProperty` stays equal to the live-array length, and every creation
or disposal notification is delivered with count and collection already in
agreement. -/
theorem c9_countPropertyMatchesArray (ops : List GroupOp) (s s' : GroupState)
    (hrun : runGroupOps s ops = .ok s') (hinv : groupCountConsistent s) :
    groupCountConsistent s' := by
  induction ops generalizing s with
  | nil => cases hrun; exact hinv
  | cons op rest ih =>
    simp only [runGroupOps, Except.bind] at hrun
    cases hop : applyGroupOp s op with
    | error e => rw [hop] at hrun; cases hrun
    | ok s₁ =>
      rw [hop] at hrun
      exact ih s₁ hrun (applyGroupOp_countConsistent s op s₁ hop hinv)

/-- C2 witness: creating elements 0,1,2 and disposing element 1 while
deferred queues them without notifying; flushing then delivers exactly the
three creations (in order) followed by the one disposal. -/
theorem c2_deferredNotificationFlush_witness :
    runGroupOps initGroup
      [.setDeferred true, .createNext, .createNext, .createNext, .dispose 1] =
      .ok ⟨[0, 2], 3, 2, true, [0, 1, 2], [1], [1], []⟩
  ∧ (⟨[0, 2], 3, 2, true, [0, 1, 2], [1], [1], []⟩ : GroupState).notificationsDeferred = true
  ∧ setNotificationsDeferred ⟨[0, 2], 3, 2, true, [0, 1, 2], [1], [1], []⟩ false =
      .ok ⟨[0, 2], 3, 2, false, [], [], [1],
        [⟨.created, 0, 2, 2⟩, ⟨.created, 1, 2, 2⟩, ⟨.created, 2, 2, 2⟩,
          ⟨.disposed, 1, 2, 2⟩]⟩ :=
  ⟨rfl, rfl,
    (c2_deferredNotificationFlush ⟨[0, 2], 3, 2, true, [0, 1, 2], [1], [1], []⟩ 3 rfl).2.2⟩

/-- C5 witness: three creations give indices `[0, 1, 2]`; after disposing
index 1, the next creation gets index 3, not 1. -/
theorem c5_indexCounterNeverReused_witness :
    1 < 3
  ∧ (groupAfterCreates 3).array = [0, 1, 2]
  ∧ disposeElement (groupAfterCreates 3) 1 = .ok (groupAfterDispose 3 1)
  ∧ (createNextElement (groupAfterDispose 3 1)).array = ((List.range 3).erase 1) ++ [3] :=
  ⟨by decide, by decide,
    (c5_indexCounterNeverReused 3 1 (by decide)).2.2.2.2.2.2.1,
    (c5_indexCounterNeverReused 3 1 (by decide)).2.2.2.2.2.2.2.1⟩

/-- C9 witness: a concrete run (two creations, one disposal) preserves the
count/array consistency. -/
theorem c9_countPropertyMatchesArray_witness :
    runGroupOps initGroup [.createNext, .createNext, .dispose 0] =
      .ok ⟨[1], 2, 1, false, [], [], [0],
        [⟨.created, 0, 1, 1⟩, ⟨.created, 1, 2, 2⟩, ⟨.disposed, 0, 1, 1⟩]⟩
  ∧ groupCountConsistent initGroup
  ∧ groupCountConsistent ⟨[1], 2, 1, false, [], [], [0],
      [⟨.created, 0, 1, 1⟩, ⟨.created, 1, 2, 2⟩, ⟨.disposed, 0, 1, 1⟩]⟩ :=
  ⟨rfl, by decide,
    c9_countPropertyMatchesArray [.createNext, .createNext, .dispose 0] initGroup
      ⟨[1], 2, 1, false, [], [], [0],
        [⟨.created, 0, 1, 1⟩, ⟨.created, 1, 2, 2⟩, ⟨.disposed, 0, 1, 1⟩]⟩ rfl (by decide)⟩

/-! ## Tandem naming tree (src/unnamed/part_001)

`createTandem` either returns an already-existing child (asserting that the
`required`/`supplied` flags agree) or constructs, validates and links a new
child node.  Options left out inherit the parent's flags, as in
`getExtendedOptions`. -/

/-- Options of `Tandem.createTandem`; a `none` field inherits the parent's
value (the `merge` in `getExtendedOptions`). -/
structure TandemOpts where
  required : Option Bool := none
  supplied : Option Bool := none
deriving DecidableEq, Repr

/-- A Tandem node: path-segment name, the two flags, and the children map
(insertion-ordered, unique keys). -/
inductive TandemNode : Type where
  | mk (name : String) (required supplied : Bool) (children : List (String × TandemNode))

/-- Name accessor. -/
def TandemNode.name : TandemNode → String
  | .mk n _ _ _ => n

/-- Flag accessor (`required`). -/
def TandemNode.required : TandemNode → Bool
  | .mk _ r _ _ => r

/-- Flag accessor (`supplied`). -/
def TandemNode.supplied : TandemNode → Bool
  | .mk _ _ s _ => s

/-- Children accessor. -/
def TandemNode.children : TandemNode → List (String × TandemNode)
  | .mk n r s c => c

/-- Replace the children map. -/
def TandemNode.setChildren : TandemNode → List (String × TandemNode) → TandemNode
  | .mk n r s _, c => .mk n r s c

/-- `getTermRegex()`: `/^[a-zA-Z0-9[\],]+$/` per character. -/
def tandemTermCharOk (c : Char) : Bool :=
  c.isAlpha || c.isDigit || c == '[' || c == ']' || c == ','

/-- A term is non-empty and all its characters match the term regex. -/
def tandemNameOk (n : String) : Bool :=
  n ≠ "" && n.data.all tandemTermCharOk

/-- `window.phetio.PhetioIDUtils.append( parentID, name )`: the derived
full path of a node under a given parent path. -/
def phetioIDOf (parentID : String) (n : TandemNode) : String :=
  parentID ++ "." ++ n.name

/-- `Tandem.createTandem( name, options )`: returns the existing child when
present (dev-build asserts that its flags match the resolved options), else
constructs a new node (the constructor validates the name against the term
regex and `METADATA_KEY`) and links it into the children map.  Returns the
child together with the updated parent. -/
def createTandem (p : TandemNode) (name : String) (opts : TandemOpts) :
    Except Unit (TandemNode × TandemNode) :=
  let req := opts.required.getD p.required
  let sup := opts.supplied.getD p.supplied
  match p.children.lookup name with
  | some currentChild =>
    -- re-use the child if it already exists, but make sure it behaves the same
    if currentChild.required = req then
      if currentChild.supplied = sup then .ok (currentChild, p) else .error ()
    else .error ()
  | none =>
    if tandemNameOk name ∧ name ≠ "_metadata" then
      let child : TandemNode := .mk name req sup []
      .ok (child, p.setChildren (p.children ++ [(name, child)]))
    else .error ()

/-- Appending a fresh key to an association list makes it found by lookup. -/
theorem lookup_append_singleton {α : Type} (l : List (String × α)) (k : String) (v : α)
    (h : l.lookup k = none) : (l ++ [(k, v)]).lookup k = some v := by
  induction l with
  | nil => simp [List.lookup]
  | cons hd tl ih =>
    obtain ⟨k', v'⟩ := hd
    simp only [List.lookup, List.cons_append] at h ⊢
    cases hkk : k == k' with
    | true => simp [hkk] at h
    | false => simp only [hkk] at h ⊢; exact ih h

/-- After a successful `createTandem`, the returned child is in the
returned parent's children map under the requested name, and its flags are
the options resolved against the parent's flags. -/
theorem createTandem_ok_lookup (p : TandemNode) (name : String) (opts : TandemOpts)
    (c p' : TandemNode) (h : createTandem p name opts = .ok (c, p')) :
    p'.children.lookup name = some c
  ∧ c.required = (opts.required.getD p'.required)
  ∧ c.supplied = (opts.supplied.getD p'.supplied) := by
  obtain ⟨pn, pr, ps, pc⟩ := p
  simp only [createTandem, TandemNode.children, TandemNode.required, TandemNode.supplied] at h
  cases hlook : pc.lookup name with
  | some currentChild =>
    obtain ⟨cn, cr, cs, cc⟩ := currentChild
    simp only [hlook] at h
    by_cases h₁ : cr = opts.required.getD pr
    · rw [if_pos h₁] at h
      by_cases h₂ : cs = opts.supplied.getD ps
      · rw [if_pos h₂] at h
        cases h
        exact ⟨hlook, h₁, h₂⟩
      · rw [if_neg h₂] at h; cases h
    · rw [if_neg h₁] at h; cases h
  | none =>
    simp only [hlook] at h
    by_cases h₁ : (tandemNameOk name = true ∧ name ≠ "_metadata")
    · rw [if_pos h₁] at h
      cases h
      exact ⟨lookup_append_singleton pc name _ hlook, rfl, rfl⟩
    · rw [if_neg h₁] at h; cases h

/-- C3: `createTandem` is idempotent — a second call with the same options
returns the very same child node and leaves the tree unchanged (so the
derived full path is the same) — and a further call for the same name whose
resolved `required`/`supplied` flags differ from the existing child's is a
structural-consistency error. -/
theorem c3_createTandemIdempotentFlagsChecked (p : TandemNode) (name : String)
    (opts : TandemOpts) (c p' : TandemNode)
    (h : createTandem p name opts = .ok (c, p')) :
    createTandem p' name opts = .ok (c, p')
  ∧ (∀ parentID c₂ p₂, createTandem p' name opts = .ok (c₂, p₂) →
      phetioIDOf parentID c₂ = phetioIDOf parentID c)
  ∧ ∀ opts₂ : TandemOpts,
      (opts₂.required.getD p'.required ≠ c.required ∨
        opts₂.supplied.getD p'.supplied ≠ c.supplied) →
      createTandem p' name opts₂ = .error () := by
  obtain ⟨hlook, hreq, hsup⟩ := createTandem_ok_lookup p name opts c p' h
  have h1 : createTandem p' name opts = .ok (c, p') := by
    simp only [createTandem, hlook]
    rw [if_pos hreq, if_pos hsup]
  refine ⟨h1, ?_, ?_⟩
  · intro parentID c₂ p₂ hc
    rw [h1] at hc
    cases hc
    rfl
  · intro opts₂ hmis
    simp only [createTandem, hlook]
    rcases hmis with hm | hm
    · rw [if_neg (fun hh => hm hh.symm)]
    · by_cases h₁ : c.required = opts₂.required.getD p'.required
      · rw [if_pos h₁, if_neg (fun hh => hm hh.symm)]
      · rw [if_neg h₁]

/-- C3 witness: `root.createTandem("x", {required:true, supplied:true})`
creates a child; repeating it returns the same child and tree; repeating it
with `{required:false, supplied:true}` is an error. -/
theorem c3_createTandemIdempotentFlagsChecked_witness :
    createTandem (.mk "rootNode" true true []) "x" ⟨some true, some true⟩ =
      .ok (.mk "x" true true [], .mk "rootNode" true true [("x", .mk "x" true true [])])
  ∧ createTandem (.mk "rootNode" true true [("x", .mk "x" true true [])]) "x"
      ⟨some true, some true⟩ =
      .ok (.mk "x" true true [], .mk "rootNode" true true [("x", .mk "x" true true [])])
  ∧ createTandem (.mk "rootNode" true true [("x", .mk "x" true true [])]) "x"
      ⟨some false, some true⟩ = .error () :=
  ⟨rfl,
    (c3_createTandemIdempotentFlagsChecked (.mk "rootNode" true true []) "x"
      ⟨some true, some true⟩ _ _ rfl).1,
    (c3_createTandemIdempotentFlagsChecked (.mk "rootNode" true true []) "x"
      ⟨some true, some true⟩ _ _ rfl).2.2 ⟨some false, some true⟩ (by left; decide)⟩

/-! ## Buffered registration and launch (src/unnamed/part_001,
`Tandem.addPhetioObject` / `Tandem.launch`)

`PHET_IO_ENABLED` and `Tandem.VALIDATION` are modelled as true (the
configuration in which registration and validation are active).  A
registered object is reduced to its id plus the `required`/`supplied`
flags of its tandem; a notification delivery appends one `(listener, id)`
pair per registered listener, in listener order. -/

/-- A PhetioObject as seen by registration: id and tandem flags. -/
structure RegObj where
  oid : ℕ
  required : Bool
  supplied : Bool
deriving DecidableEq, Repr

/-- Module-level registration state: the one-way `launched` flag, the
listener list, the pre-launch buffer, and the notification deliveries. -/
structure TandemRegistry where
  launched : Bool
  listeners : List ℕ
  buffered : List RegObj
  log : List (ℕ × ℕ)
deriving DecidableEq, Repr

/-- The `for` loop over `phetioObjectListeners`: notify every listener,
in order, about one object. -/
def notifyAll (s : TandemRegistry) (o : RegObj) : TandemRegistry :=
  { s with log := s.log ++ s.listeners.map (fun l => (l, o.oid)) }

/-- `Tandem.addPhetioObject( phetioObject )`: errors when required but not
supplied (dev-build assert under VALIDATION); silently ignores optional
unsupplied tandems; buffers before launch; notifies all listeners
synchronously after launch. -/
def addPhetioObject (s : TandemRegistry) (o : RegObj) : Except Unit TandemRegistry :=
  if o.required && !o.supplied then .error ()
  else if !o.required && !o.supplied then .ok s
  else if !s.launched then .ok { s with buffered := s.buffered ++ [o] }
  else .ok (notifyAll s o)

/-- The `while ( bufferedPhetioObjects.length > 0 )` loop of
`Tandem.launch`: shift the head of the buffer and re-dispatch it through
`addPhetioObject`.  The fuel bounds the iteration count; `launch` passes
the buffer length, which suffices because after launch a dispatch never
re-buffers. -/
def flushBuffered : ℕ → TandemRegistry → Except Unit TandemRegistry
  | 0, s => if s.buffered.isEmpty then .ok s else .error ()
  | fuel + 1, s =>
    match s.buffered with
    | [] => .ok s
    | o :: rest => do
      let s' ← addPhetioObject { s with buffered := rest } o
      flushBuffered fuel s'

/-- `Tandem.launch()`: asserts not launched twice, sets the flag, flushes
the buffer in FIFO order, and asserts the buffer ended empty. -/
def launch (s : TandemRegistry) : Except Unit TandemRegistry :=
  if s.launched then .error ()
  else do
    let s' ← flushBuffered s.buffered.length { s with launched := true }
    if s'.buffered.isEmpty then .ok s' else .error ()

/-- Flushing after the flag is set delivers one notification fan-out per
buffered object, in FIFO order, and empties the buffer (provided every
buffered object was actually supplied, which buffering guarantees). -/
theorem flushBuffered_launched (l : List RegObj) :
    ∀ (ls : List ℕ) (lg : List (ℕ × ℕ)), (∀ b ∈ l, b.supplied = true) →
    flushBuffered l.length ⟨true, ls, l, lg⟩ =
      .ok ⟨true, ls, [], lg ++ l.flatMap (fun b => ls.map (fun x => (x, b.oid)))⟩ := by
  induction l with
  | nil => intro ls lg _; simp [flushBuffered]
  | cons o rest ih =>
    intro ls lg hsup
    have ho : o.supplied = true := hsup o (List.mem_cons_self o rest)
    simp only [List.length_cons, flushBuffered, addPhetioObject, ho, Bool.not_true,
      Bool.and_false, Bool.false_eq_true, if_false, notifyAll]
    simp only [bind, Except.bind]
    rw [ih ls (lg ++ ls.map fun x => (x, o.oid)) (fun b hb => hsup b (List.mem_cons_of_mem o hb))]
    simp

/-- C4: before launch, a (supplied) registration is appended to the buffer
and no listener is notified; `launch()` flushes the buffer in FIFO arrival
order, notifying the listeners once per buffered object, empties the
buffer, and flips the one-way flag; after launch every registration
notifies all listeners immediately; launching twice is an error. -/
theorem c4_bufferedLaunch (s : TandemRegistry) (o : RegObj)
    (hsup : o.supplied = true) (hbuf : ∀ b ∈ s.buffered, b.supplied = true) :
    (s.launched = false →
      addPhetioObject s o = .ok { s with buffered := s.buffered ++ [o] })
  ∧ (s.launched = false →
      launch s = .ok
        { s with
          launched := true
          buffered := []
          log := s.log ++ s.buffered.flatMap (fun b => s.listeners.map (fun x => (x, b.oid))) })
  ∧ (s.launched = true → addPhetioObject s o = .ok (notifyAll s o))
  ∧ (s.launched = true → launch s = .error ()) := by
  obtain ⟨launched, ls, buf, lg⟩ := s
  refine ⟨?_, ?_, ?_, ?_⟩
  · intro hl
    cases hl
    simp [addPhetioObject, hsup]
  · intro hl
    cases hl
    simp only [launch, Bool.false_eq_true, if_false]
    simp only [bind, Except.bind]
    rw [flushBuffered_launched buf ls lg hbuf]
    simp
  · intro hl
    cases hl
    simp [addPhetioObject, hsup]
  · intro hl
    cases hl
    simp [launch]

/-- C4 witness: three objects registered before launch are buffered and
unnotified; `launch()` delivers them in order to the listener; a later
registration notifies immediately; a second `launch()` errors. -/
theorem c4_bufferedLaunch_witness :
    addPhetioObject ⟨false, [7], [⟨1, true, true⟩, ⟨2, true, true⟩], []⟩ ⟨3, true, true⟩ =
      .ok ⟨false, [7], [⟨1, true, true⟩, ⟨2, true, true⟩, ⟨3, true, true⟩], []⟩
  ∧ launch ⟨false, [7], [⟨1, true, true⟩, ⟨2, true, true⟩, ⟨3, true, true⟩], []⟩ =
      .ok ⟨true, [7], [], [(7, 1), (7, 2), (7, 3)]⟩
  ∧ addPhetioObject ⟨true, [7], [], [(7, 1), (7, 2), (7, 3)]⟩ ⟨4, true, true⟩ =
      .ok ⟨true, [7], [], [(7, 1), (7, 2), (7, 3), (7, 4)]⟩
  ∧ launch ⟨true, [7], [], [(7, 1), (7, 2), (7, 3), (7, 4)]⟩ = .error () :=
  ⟨(c4_bufferedLaunch ⟨false, [7], [⟨1, true, true⟩, ⟨2, true, true⟩], []⟩ ⟨3, true, true⟩
      rfl (by decide)).1 rfl,
    (c4_bufferedLaunch ⟨false, [7], [⟨1, true, true⟩, ⟨2, true, true⟩, ⟨3, true, true⟩], []⟩
      ⟨3, true, true⟩ rfl (by decide)).2.1 rfl,
    (c4_bufferedLaunch ⟨true, [7], [], [(7, 1), (7, 2), (7, 3)]⟩ ⟨4, true, true⟩
      rfl (by decide)).2.2.1 rfl,
    (c4_bufferedLaunch ⟨true, [7], [], [(7, 1), (7, 2), (7, 3), (7, 4)]⟩ ⟨4, true, true⟩
      rfl (by decide)).2.2.2 rfl⟩

/-! ## PhetioCapsule (src/unnamed/part_007)

The capsule holds at most one element in its singleton slot
(`this.element`).  Created elements get fresh ids from a counter; disposal
is tracked in a list.  The log records `(isCreation, element)`
notifications. -/

/-- State of a PhetioCapsule. -/
structure CapsuleState where
  element : Option ℕ
  nextId : ℕ
  disposedElems : List ℕ
  log : List (Bool × ℕ)
deriving DecidableEq, Repr

/-- A freshly constructed capsule: `this.element = null`. -/
def initCapsule : CapsuleState :=
  { element := none, nextId := 0, disposedElems := [], log := [] }

/-- `PhetioCapsule.create( ... )`: builds a new dynamic element, stores it
in the singleton slot — without disposing any pre-existing element — and
fires the creation notification. -/
def capsuleCreate (s : CapsuleState) : CapsuleState :=
  { s with
    element := some s.nextId
    nextId := s.nextId + 1
    log := s.log ++ [(true, s.nextId)] }

/-- `PhetioCapsule.getElement( ... )`: creates the element if it has not
been created yet. -/
def capsuleGetElement (s : CapsuleState) : CapsuleState :=
  if s.element.isNone then capsuleCreate s else s

/-- `PhetioCapsule.disposeElement()`: asserts an element exists, disposes
it (the element's own dispose asserts it was not already disposed), fires
the disposal notification, and nulls the slot. -/
def capsuleDisposeElement (s : CapsuleState) : Except Unit CapsuleState :=
  match s.element with
  | none => .error ()
  | some e =>
    if e ∈ s.disposedElems then .error ()
    else .ok
      { s with
        element := none
        disposedElems := s.disposedElems ++ [e]
        log := s.log ++ [(false, e)] }

/-- `PhetioCapsule.clear()`: disposes the element if one exists. -/
def capsuleClear (s : CapsuleState) : Except Unit CapsuleState :=
  match s.element with
  | none => .ok s
  | some _ => capsuleDisposeElement s

/-- Client-visible capsule operations. -/
inductive CapsuleOp where
  | create : CapsuleOp
  | getElement : CapsuleOp
  | clear : CapsuleOp
  | disposeElement : CapsuleOp
deriving DecidableEq, Repr

/-- Apply one capsule operation. -/
def applyCapsuleOp (s : CapsuleState) : CapsuleOp → Except Unit CapsuleState
  | .create => .ok (capsuleCreate s)
  | .getElement => .ok (capsuleGetElement s)
  | .clear => capsuleClear s
  | .disposeElement => capsuleDisposeElement s

/-- Run a sequence of capsule operations. -/
def runCapsuleOps (s : CapsuleState) : List CapsuleOp → Except Unit CapsuleState
  | [] => .ok s
  | op :: rest => do
    let s' ← applyCapsuleOp s op
    runCapsuleOps s' rest

/-- The undisposed elements the capsule still references (the slot,
filtered by disposal). -/
def capsuleLiveReferences (s : CapsuleState) : List ℕ :=
  match s.element with
  | some e => if e ∈ s.disposedElems then [] else [e]
  | none => []

/-- Capsule state invariant: ids are bounded by the counter and the slot,
when occupied, holds an undisposed element. -/
def capsuleInvariant (s : CapsuleState) : Prop :=
  (∀ e ∈ s.disposedElems, e < s.nextId)
  ∧ (∀ e, s.element = some e → e < s.nextId ∧ e ∉ s.disposedElems)

instance (s : CapsuleState) : Decidable (capsuleInvariant s) := by
  unfold capsuleInvariant
  exact instDecidableAnd

/-- Each capsule operation preserves the invariant. -/
theorem applyCapsuleOp_invariant (s : CapsuleState) (op : CapsuleOp) (s' : CapsuleState)
    (hop : applyCapsuleOp s op = .ok s') (hinv : capsuleInvariant s) :
    capsuleInvariant s' := by
  obtain ⟨hdis, hslot⟩ := hinv
  cases op with
  | create =>
    cases hop
    refine ⟨fun e he => Nat.lt_succ_of_lt (hdis e he), fun e he => ?_⟩
    simp only [capsuleCreate] at he
    cases he
    exact ⟨Nat.lt_succ_self _, fun hmem => Nat.lt_irrefl _ (hdis _ hmem)⟩
  | getElement =>
    cases hop
    simp only [capsuleGetElement]
    split
    · refine ⟨fun e he => Nat.lt_succ_of_lt (hdis e he), fun e he => ?_⟩
      simp only [capsuleCreate] at he
      cases he
      exact ⟨Nat.lt_succ_self _, fun hmem => Nat.lt_irrefl _ (hdis _ hmem)⟩
    · exact ⟨hdis, hslot⟩
  | clear =>
    simp only [applyCapsuleOp, capsuleClear, capsuleDisposeElement] at hop
    cases helem : s.element with
    | none => simp only [helem] at hop; cases hop; exact ⟨hdis, hslot⟩
    | some e =>
      simp only [helem] at hop
      by_cases hd : e ∈ s.disposedElems
      · rw [if_pos hd] at hop; cases hop
      · rw [if_neg hd] at hop
        cases hop
        refine ⟨?_, fun e' he' => by cases he'⟩
        intro e' he'
        rcases List.mem_append.mp he' with he' | he'
        · exact hdis e' he'
        · rcases List.mem_singleton.mp he' with rfl
          exact (hslot e' helem).1
  | disposeElement =>
    simp only [applyCapsuleOp, capsuleDisposeElement] at hop
    cases helem : s.element with
    | none => simp only [helem] at hop; cases hop
    | some e =>
      simp only [helem] at hop
      by_cases hd : e ∈ s.disposedElems
      · rw [if_pos hd] at hop; cases hop
      · rw [if_neg hd] at hop
        cases hop
        refine ⟨?_, fun e' he' => by cases he'⟩
        intro e' he'
        rcases List.mem_append.mp he' with he' | he'
        · exact hdis e' he'
        · rcases List.mem_singleton.mp he' with rfl
          exact (hslot e' helem).1

/-- C6: after any successful sequence of `create`, `getElement`, `clear`,
`disposeElement` from a fresh capsule, the capsule references at most one
undisposed element; the slot element, when present, is undisposed;
`create` stores its fresh element in the singleton slot; and — the spec's
caveat — `create` on an occupied capsule does not dispose the previous
element (only `clear`/`disposeElement` do). -/
theorem c6_capsuleAtMostOneLiveElement (ops : List CapsuleOp) (s' : CapsuleState)
    (hrun : runCapsuleOps initCapsule ops = .ok s') :
    capsuleInvariant s'
  ∧ (capsuleLiveReferences s').length ≤ 1
  ∧ (∀ e, s'.element = some e → e ∉ s'.disposedElems)
  ∧ (capsuleCreate s').element = some s'.nextId
  ∧ (∀ e, s'.element = some e → e ∉ (capsuleCreate s').disposedElems) := by
  have hinv : capsuleInvariant s' := by
    have step : ∀ (l : List CapsuleOp) (t t' : CapsuleState),
        runCapsuleOps t l = .ok t' → capsuleInvariant t → capsuleInvariant t' := by
      intro l
      induction l with
      | nil => intro t t' hr ht; cases hr; exact ht
      | cons op rest ih =>
        intro t t' hr ht
        simp only [runCapsuleOps, bind, Except.bind] at hr
        cases hop : applyCapsuleOp t op with
        | error e => rw [hop] at hr; cases hr
        | ok t₁ =>
          rw [hop] at hr
          exact ih t₁ t' hr (applyCapsuleOp_invariant t op t₁ hop ht)
    exact step ops initCapsule s' hrun (by decide)
  refine ⟨hinv, ?_, fun e he => (hinv.2 e he).2, rfl, fun e he => (hinv.2 e he).2⟩
  rcases hel : s'.element with _ | e
  · simp [capsuleLiveReferences, hel]
  · simp only [capsuleLiveReferences, hel]
    split <;> simp

/-- C6 witness: a concrete run — create, create again (old element 0 stays
undisposed and unreferenced), clear, then getElement — keeps the invariant
and ends referencing exactly one live element. -/
theorem c6_capsuleAtMostOneLiveElement_witness :
    runCapsuleOps initCapsule [.create, .create, .clear, .getElement] =
      .ok ⟨some 2, 3, [1], [(true, 0), (true, 1), (false, 1), (true, 2)]⟩
  ∧ capsuleInvariant ⟨some 2, 3, [1], [(true, 0), (true, 1), (false, 1), (true, 2)]⟩
  ∧ (capsuleLiveReferences
      ⟨some 2, 3, [1], [(true, 0), (true, 1), (false, 1), (true, 2)]⟩).length ≤ 1 :=
  ⟨rfl,
    (c6_capsuleAtMostOneLiveElement [.create, .create, .clear, .getElement]
      ⟨some 2, 3, [1], [(true, 0), (true, 1), (false, 1), (true, 2)]⟩ rfl).1,
    (c6_capsuleAtMostOneLiveElement [.create, .create, .clear, .getElement]
      ⟨some 2, 3, [1], [(true, 0), (true, 1), (false, 1), (true, 2)]⟩ rfl).2.1⟩

/-! ## PhET-iO API validation of the overrides file (src/unnamed/part_003,
`PhetioAPIValidation.validateOverridesFile`)

Baseline and overrides are maps from phetioID to metadata records (maps
from metadata key to a JSON metadata value).  `assertAPIError` reports a
structured violation; the embedding returns the ordered list of reported
violations (each report raises a dev-build assertion in the source; the
list is the trace of reports).  The `assert( isArchetype, ... )` guard for
phetioIDs missing from a baseline generated without archetypes is the
`.error` outcome. -/

/-- A metadata value in the baseline/overrides schemas. -/
inductive MetaVal where
  | mbool (b : Bool)
  | mstr (s : String)
  | mnum (q : ℚ)
  | mnull
deriving DecidableEq, Repr

/-- A metadata record keyed by metadata key. -/
abbrev Metadata := List (String × MetaVal)

/-- The rules an override entry can violate (numbered as in the source's
header doc; the source labels both metadata-key rules "8", with different
messages). -/
inductive APIRule where
  | overrideMissingFromBaseline
  | overrideHasNoKeys
  | overrideKeyNotInBaseline
  | overrideValueSameAsBaseline
deriving DecidableEq, Repr

/-- One `assertAPIError` report. -/
structure APIViolation where
  phetioID : String
  rule : APIRule
  key : Option String
deriving DecidableEq, Repr

/-- Contiguous-substring test (`indexOf( needle ) >= 0`). -/
def containsSub (needle : List Char) : List Char → Bool
  | [] => needle.isEmpty
  | c :: rest => needle.isPrefixOf (c :: rest) || containsSub needle rest

/-- `phetioID.indexOf( DynamicTandem.DYNAMIC_ARCHETYPE_NAME ) >= 0` with
`DYNAMIC_ARCHETYPE_NAME = 'archetype'`. -/
def phetioIDIsArchetype (pid : String) : Bool :=
  containsSub "archetype".data pid.data

/-- The per-entry metadata checks: an override with no metadata keys is
reported; every override metadata key must exist in the baseline record;
an override value equal to its baseline counterpart (a no-op override) is
reported. -/
def validateOverrideMetadata (pid : String) (ov base : Metadata) : List APIViolation :=
  (if ov.length = 0 then [⟨pid, .overrideHasNoKeys, none⟩] else [])
  ++ ov.flatMap (fun kv =>
      match base.lookup kv.1 with
      | none => [⟨pid, .overrideKeyNotInBaseline, some kv.1⟩]
      | some bv =>
        if kv.2 = bv then [⟨pid, .overrideValueSameAsBaseline, some kv.1⟩] else [])

/-- `PhetioAPIValidation.validateOverridesFile()`: iterates the overrides
entries; a phetioID missing from a baseline generated without archetypes
must be an archetype id (dev assert); with archetypes, a missing phetioID
is reported (rule 3); otherwise the entry's metadata is checked against
its baseline record. -/
def validateOverridesFile (createArchetypes : Bool)
    (baseline : List (String × Metadata)) :
    List (String × Metadata) → Except Unit (List APIViolation)
  | [] => .ok []
  | (pid, ov) :: rest => do
    let here ←
      if !createArchetypes && (baseline.lookup pid).isNone then
        if phetioIDIsArchetype pid then pure [] else .error ()
      else
        match baseline.lookup pid with
        | none => pure [⟨pid, .overrideMissingFromBaseline, none⟩]
        | some base => pure (validateOverrideMetadata pid ov base)
    let others ← validateOverridesFile createArchetypes baseline rest
    pure (here ++ others)

/-- Membership facts about the per-entry metadata checks. -/
theorem validateOverrideMetadata_mem (pid : String) (ov base : Metadata) :
    (ov = [] → (⟨pid, .overrideHasNoKeys, none⟩ : APIViolation) ∈
      validateOverrideMetadata pid ov base)
  ∧ ∀ k v, (k, v) ∈ ov →
      (base.lookup k = none → (⟨pid, .overrideKeyNotInBaseline, some k⟩ : APIViolation) ∈
        validateOverrideMetadata pid ov base)
    ∧ (base.lookup k = some v → (⟨pid, .overrideValueSameAsBaseline, some k⟩ : APIViolation) ∈
        validateOverrideMetadata pid ov base) := by
  constructor
  · intro hov
    subst hov
    simp [validateOverrideMetadata]
  · intro k v hkv
    constructor
    · intro hlk
      apply List.mem_append.mpr
      right
      apply List.mem_flatMap.mpr
      exact ⟨(k, v), hkv, by simp [hlk]⟩
    · intro hlk
      apply List.mem_append.mpr
      right
      apply List.mem_flatMap.mpr
      exact ⟨(k, v), hkv, by simp [hlk]⟩

/-- With `createArchetypes = true` the validation never raises and every
entry's reports are contained in the overall report list. -/
theorem validateOverridesFile_entry (baseline : List (String × Metadata)) :
    ∀ (overrides : List (String × Metadata)) (violations : List APIViolation),
    validateOverridesFile true baseline overrides = .ok violations →
    ∀ pid ov, (pid, ov) ∈ overrides →
      (baseline.lookup pid = none →
        (⟨pid, .overrideMissingFromBaseline, none⟩ : APIViolation) ∈ violations)
    ∧ (∀ base, baseline.lookup pid = some base →
        ∀ x ∈ validateOverrideMetadata pid ov base, x ∈ violations) := by
  intro overrides
  induction overrides with
  | nil => intro violations _ pid ov hmem; cases hmem
  | cons hd rest ih =>
    intro violations hrun pid ov hmem
    rcases List.mem_cons.mp hmem with heq | hmemRest
    · subst heq
      simp only [validateOverridesFile, Bool.not_true, Bool.false_and, Bool.false_eq_true,
        if_false, bind, Except.bind] at hrun
      cases hrest : validateOverridesFile true baseline rest with
      | error err =>
        cases hlk : baseline.lookup pid <;> rw [hlk] at hrun <;>
          simp only [pure, Except.pure, hrest] at hrun <;> cases hrun
      | ok others =>
        cases hlk : baseline.lookup pid with
        | none =>
          rw [hlk] at hrun
          simp only [pure, Except.pure, hrest] at hrun
          cases hrun
          exact ⟨fun _ => List.mem_append.mpr (Or.inl (by simp)),
            fun base hbase => (nomatch hbase)⟩
        | some base =>
          rw [hlk] at hrun
          simp only [pure, Except.pure, hrest] at hrun
          cases hrun
          refine ⟨fun hnone => (nomatch hnone), fun base' hbase x hx => ?_⟩
          cases hbase
          exact List.mem_append.mpr (Or.inl hx)
    · obtain ⟨pid₀, ov₀⟩ := hd
      simp only [validateOverridesFile, Bool.not_true, Bool.false_and, Bool.false_eq_true,
        if_false, bind, Except.bind] at hrun
      cases hrest : validateOverridesFile true baseline rest with
      | error err =>
        cases hlk : baseline.lookup pid₀ <;> rw [hlk] at hrun <;>
          simp only [pure, Except.pure, hrest] at hrun <;> cases hrun
      | ok others =>
        cases hlk : baseline.lookup pid₀ <;> rw [hlk] at hrun <;>
          simp only [pure, Except.pure, hrest] at hrun <;> cases hrun <;>
          obtain ⟨h1, h2⟩ := ih others hrest pid ov hmemRest <;>
          exact ⟨fun hn => List.mem_append.mpr (Or.inr (h1 hn)),
            fun base hbase x hx => List.mem_append.mpr (Or.inr (h2 base hbase x hx))⟩

/-- C8: for every overrides entry checked against the baseline (with
archetypes available): a phetioID absent from the baseline is reported; an
override record with no metadata keys is reported; an override metadata
key absent from its baseline record is reported; and a no-op override
(value equal to the baseline's) is reported. -/
theorem c8_overridesDiffedAgainstBaseline (baseline overrides : List (String × Metadata))
    (violations : List APIViolation)
    (hrun : validateOverridesFile true baseline overrides = .ok violations)
    (pid : String) (ov : Metadata) (hmem : (pid, ov) ∈ overrides) :
    (baseline.lookup pid = none →
      (⟨pid, .overrideMissingFromBaseline, none⟩ : APIViolation) ∈ violations)
  ∧ ∀ base, baseline.lookup pid = some base →
      (ov = [] → (⟨pid, .overrideHasNoKeys, none⟩ : APIViolation) ∈ violations)
    ∧ ∀ k v, (k, v) ∈ ov →
        (base.lookup k = none →
          (⟨pid, .overrideKeyNotInBaseline, some k⟩ : APIViolation) ∈ violations)
      ∧ (base.lookup k = some v →
          (⟨pid, .overrideValueSameAsBaseline, some k⟩ : APIViolation) ∈ violations) := by
  obtain ⟨h1, h2⟩ := validateOverridesFile_entry baseline overrides violations hrun pid ov hmem
  refine ⟨h1, fun base hbase => ?_⟩
  obtain ⟨m1, m2⟩ := validateOverrideMetadata_mem pid ov base
  exact ⟨fun hov => h2 base hbase _ (m1 hov),
    fun k v hkv =>
      ⟨fun hlk => h2 base hbase _ ((m2 k v hkv).1 hlk),
        fun hlk => h2 base hbase _ ((m2 k v hkv).2 hlk)⟩⟩

/-- Concrete baseline schema for the C8 witness. -/
def baselineW : List (String × Metadata) :=
  [("sim.a", [("phetioState", .mbool true), ("phetioReadOnly", .mbool false)]),
    ("sim.b", [("phetioState", .mbool true)])]

/-- Concrete overrides schema for the C8 witness: one unknown phetioID,
one entry with an unknown metadata key and a no-op value, one empty
entry. -/
def overridesW : List (String × Metadata) :=
  [("sim.missing", [("phetioState", .mbool false)]),
    ("sim.a", [("phetioFeatured", .mbool true), ("phetioState", .mbool true)]),
    ("sim.b", [])]

/-- The violations the validator reports on the C8 witness schemas. -/
def violationsW : List APIViolation :=
  [⟨"sim.missing", .overrideMissingFromBaseline, none⟩,
    ⟨"sim.a", .overrideKeyNotInBaseline, some "phetioFeatured"⟩,
    ⟨"sim.a", .overrideValueSameAsBaseline, some "phetioState"⟩,
    ⟨"sim.b", .overrideHasNoKeys, none⟩]

/-- C8 witness: each of the four violation conditions is reported on the
concrete schemas. -/
theorem c8_overridesDiffedAgainstBaseline_witness :
    validateOverridesFile true baselineW overridesW = .ok violationsW
  ∧ (⟨"sim.missing", .overrideMissingFromBaseline, none⟩ : APIViolation) ∈ violationsW
  ∧ (⟨"sim.b", .overrideHasNoKeys, none⟩ : APIViolation) ∈ violationsW
  ∧ (⟨"sim.a", .overrideKeyNotInBaseline, some "phetioFeatured"⟩ : APIViolation) ∈ violationsW
  ∧ (⟨"sim.a", .overrideValueSameAsBaseline, some "phetioState"⟩ : APIViolation) ∈ violationsW :=
  ⟨rfl,
    (c8_overridesDiffedAgainstBaseline baselineW overridesW violationsW rfl
      "sim.missing" [("phetioState", .mbool false)] (by decide)).1 rfl,
    ((c8_overridesDiffedAgainstBaseline baselineW overridesW violationsW rfl
      "sim.b" [] (by decide)).2 [("phetioState", .mbool true)] rfl).1 rfl,
    (((c8_overridesDiffedAgainstBaseline baselineW overridesW violationsW rfl
      "sim.a" [("phetioFeatured", .mbool true), ("phetioState", .mbool true)] (by decide)).2
      [("phetioState", .mbool true), ("phetioReadOnly", .mbool false)] rfl).2
      "phetioFeatured" (.mbool true) (by decide)).1 rfl,
    (((c8_overridesDiffedAgainstBaseline baselineW overridesW violationsW rfl
      "sim.a" [("phetioFeatured", .mbool true), ("phetioState", .mbool true)] (by decide)).2
      [("phetioState", .mbool true), ("phetioReadOnly", .mbool false)] rfl).2
      "phetioState" (.mbool true) (by decide)).2 rfl⟩

end Spec2Proof
